import Mathlib

/-
Verification of the thoth-loader metadata-ingestion utilities.

The repository's shared normalization layer (`src/bookloader.py`), the
Crossref client (`src/crossref.py`), the series/issue ordinal logic
(`src/ubiquityapiloader.py`, `src/uolloader.py`) and the OBP CSV loader
(`src/obploader.py`) are shallowly embedded below.  Python strings are
modelled as lists of characters; Python `None` as `Option.none`; functions
that can raise are modelled in `Except`.
-/

namespace ThothLoader

/-- Python strings are modelled as lists of characters. -/
abbrev Str := List Char

/-- ASCII whitespace recognised by Python's `str.strip` (for the ASCII
inputs handled by these loaders). -/
def isPySpace (c : Char) : Bool :=
  c == ' ' || c == '\t' || c == '\n' || c == '\r' || c == '\x0b' || c == '\x0c'

/-- Python `str.strip()`: drop whitespace from both ends. -/
def pyStrip (s : Str) : Str :=
  ((s.dropWhile isPySpace).reverse.dropWhile isPySpace).reverse

/-- Split a string on every occurrence of a separator character, as
`re.split` with a single-character pattern (or `str.split(sep)`) does. -/
def pySplit (sep : Char) : Str → List Str
  | [] => [[]]
  | c :: rest =>
    let r := pySplit sep rest
    if c = sep then [] :: r
    else
      match r with
      | h :: t => (c :: h) :: t
      | [] => [[c]]

/-- Python `p in s` specialised to one character (`"-" in str(issn)`). -/
def strContains (c : Char) (s : Str) : Bool := s.contains c

/-- Python `s.startswith(p)`. -/
def listStartsWith : Str → Str → Bool
  | [], _ => true
  | _ :: _, [] => false
  | p :: ps, c :: cs => p == c && listStartsWith ps cs

/-- Python `s.endswith(p)`. -/
def listEndsWith (p s : Str) : Bool := listStartsWith p.reverse s.reverse

/-- Python `int(s)` on a string: surrounding whitespace allowed, optional
sign, then at least one digit; anything else raises `ValueError`
(modelled as `none`). -/
def pyIntParse (s : Str) : Option Int :=
  let t := pyStrip s
  match t with
  | '+' :: ds => if ds ≠ [] ∧ ds.all Char.isDigit then some (ds.foldl (fun a c => a * 10 + ((c.toNat : Int) - 48)) 0) else none
  | '-' :: ds => if ds ≠ [] ∧ ds.all Char.isDigit then some (-(ds.foldl (fun a c => a * 10 + ((c.toNat : Int) - 48)) 0)) else none
  | ds => if ds ≠ [] ∧ ds.all Char.isDigit then some (ds.foldl (fun a c => a * 10 + ((c.toNat : Int) - 48)) 0) else none

/-- Python `str(n)` for an integer `n`. -/
def pyStrOfInt (n : Int) : Str :=
  if n < 0 then '-' :: Nat.toDigits 10 n.natAbs else Nat.toDigits 10 n.toNat

/-- Exceptions raised by the embedded code. -/
inductive PyError where
  | valueError
  | isbnMalformed
  | unboundLocal
deriving DecidableEq

instance {ε α : Type} [DecidableEq ε] [DecidableEq α] : DecidableEq (Except ε α) := fun a b =>
  match a, b with
  | .ok x, .ok y => decidable_of_iff (x = y) (by simp)
  | .error x, .error y => decidable_of_iff (x = y) (by simp)
  | .ok _, .error _ => isFalse (by simp)
  | .error _, .ok _ => isFalse (by simp)

/-- The dictionary returned by the title helpers of `BookLoader`. -/
structure TitleDict where
  title : Str
  subtitle : Option Str
  fullTitle : Str
deriving DecidableEq

/-- `BookLoader.sanitise_title` (src/bookloader.py lines 333-339): joins
title and subtitle with a colon-space, or a plain space when the title
ends in a question mark; a falsy subtitle leaves the full title equal to
the title. -/
def sanitise_title (title : Str) (subtitle : Option Str) : TitleDict :=
  let character : Str := if listEndsWith ['?'] title then [' '] else [':', ' ']
  let full_title : Str :=
    match subtitle with
    | some s => if s ≠ [] then title ++ character ++ s else title
    | none => title
  ⟨title, subtitle, full_title⟩

/-- `BookLoader.split_title` (src/bookloader.py lines 341-351): split on
the colon; exactly two pieces are stripped and become title and subtitle,
any other piece count raises `ValueError` on unpacking, which is caught
and leaves the whole string as the title. -/
def split_title (full_title : Str) : TitleDict :=
  match pySplit ':' full_title with
  | [t, s] => ⟨pyStrip t, some (pyStrip s), full_title⟩
  | _ => ⟨full_title, none, full_title⟩

/-- `BookLoader.sanitise_date` (src/bookloader.py lines 361-371): a falsy
input gives `None`; otherwise the input is passed through `str(int(date))`
(raising `ValueError` on any non-integer string), then rendered as
`YYYY-01-01` for 4 digits, `YYYY-MM-DD` for 8 digits, and otherwise has
slashes replaced by hyphens and is stripped. -/
def sanitise_date (date : Option Str) : Except PyError (Option Str) :=
  match date with
  | none => .ok none
  | some s =>
    if s = [] then .ok none
    else
      match pyIntParse s with
      | none => .error .valueError
      | some n =>
        let ds := pyStrOfInt n
        if ds.length = 4 then .ok (some (ds ++ "-01-01".toList))
        else if ds.length = 8 then
          .ok (some (ds.take 4 ++ '-' :: (ds.drop 4).take 2 ++ '-' :: (ds.drop 6).take 2))
        else .ok (some (pyStrip (ds.map fun c => if c = '/' then '-' else c)))

/-- `BookLoader.sanitise_issn` (src/bookloader.py lines 391-402): a falsy
input gives `None`; a hyphen is inserted after the 4th character when
absent; a hyphenated form whose length is not 9 raises `ValueError`. -/
def sanitise_issn (issn : Option Str) : Except PyError (Option Str) :=
  match issn with
  | none => .ok none
  | some s =>
    if s = [] then .ok none
    else
      let hyphenated := if strContains '-' s then s else s.take 4 ++ '-' :: s.drop 4
      if hyphenated.length ≠ 9 then .error .valueError
      else .ok (some hyphenated)

/-- `BookLoader.sanitise_isbn` (src/bookloader.py lines 373-389),
parametrised over the external `isbn_hyphenate.hyphenate` library
function: a falsy input gives `None`; an input containing a hyphen is
returned as-is when 17 characters long and raises `IsbnMalformedError`
otherwise; an unhyphenated input is parsed with `int` (a `ValueError`
is caught and gives `None`) and handed to `hyphenate`, whose failures
are re-raised. -/
def sanitise_isbn (hyphenate : Str → Except PyError Str) (isbn : Option Str) :
    Except PyError (Option Str) :=
  match isbn with
  | none => .ok none
  | some s =>
    if s = [] then .ok none
    else if strContains '-' s then
      if s.length ≠ 17 then .error .isbnMalformed else .ok (some s)
    else
      match pyIntParse s with
      | none => .ok none
      | some n =>
        match hyphenate (pyStrOfInt n) with
        | .ok h => .ok (some h)
        | .error e => .error e

/-- `BookLoader.sanitise_url` (src/bookloader.py lines 404-412). -/
def sanitise_url (url : Option Str) : Option Str :=
  match url with
  | none => none
  | some s =>
    if s = [] then none
    else if listStartsWith "https://".toList s then some s
    else some ("https://".toList ++ s)

/-- Python `s.replace("http://", "https://")`: every occurrence of the
7-character pattern is replaced. -/
def replaceHttp : Str → Str
  | [] => []
  | c :: rest =>
    if listStartsWith "http://".toList (c :: rest) then
      "https://".toList ++ replaceHttp (rest.drop 6)
    else c :: replaceHttp rest
termination_by s => s.length
decreasing_by
  all_goals simp only [List.length_cons, List.length_drop]
  all_goals omega

/-- `BookLoader.sanitise_identifier` (src/bookloader.py lines 429-441):
canonicalise an identifier to the form `https://DOMAIN.org/...`. -/
def sanitise_identifier (identifier : Option Str) (domain : Str) : Option Str :=
  match identifier with
  | none => none
  | some s =>
    if s = [] then none
    else
      let urlHttps := "https://".toList ++ domain ++ ".org/".toList
      let urlHttp := "http://".toList ++ domain ++ ".org/".toList
      let urlBare := domain ++ ".org/".toList
      if listStartsWith urlHttps s then some s
      else if listStartsWith urlHttp s then some (replaceHttp s)
      else if listStartsWith urlBare s then sanitise_url (some s)
      else some (urlHttps ++ s)

/-- `BookLoader.sanitise_doi` (src/bookloader.py lines 414-417). -/
def sanitise_doi (doi : Option Str) : Option Str :=
  sanitise_identifier doi "doi".toList

/-- `BookLoader.sanitise_orcid` (src/bookloader.py lines 419-422). -/
def sanitise_orcid (orcid : Option Str) : Option Str :=
  sanitise_identifier orcid "orcid".toList

/-- `BookLoader.sanitise_ror` (src/bookloader.py lines 424-427). -/
def sanitise_ror (ror : Option Str) : Option Str :=
  sanitise_identifier ror "ror".toList

/-- The `find_integer` closure inside `sanitise_media`
(src/bookloader.py lines 454-455): `int_regex.match` takes the leading
run of digits; no leading digit raises `AttributeError` (`none`). -/
def findIntegerOpt (s : Str) : Option Int :=
  let ds := s.takeWhile Char.isDigit
  if ds = [] then none
  else some (ds.foldl (fun a c => a * 10 + ((c.toNat : Int) - 48)) 0)

/-- Does the regex `[0-9]X1,3Y \(TAG\)` (1 to 3 digits, then a space and
the parenthesised tag) match at the start of `s`? -/
def mediaTagMatchHere (tag : Str) (s : Str) : Bool :=
  (List.range' 1 3).any fun k =>
    ((s.take k).length == k) && (s.take k).all Char.isDigit &&
      listStartsWith ([' ', '('] ++ tag ++ [')']) (s.drop k)

/-- `re.search` for the audio/video annotation regexes of
src/bookloader.py lines 160-161: true when the pattern matches anywhere. -/
def mediaTagSearch (tag : Str) : Str → Bool
  | [] => false
  | c :: rest => mediaTagMatchHere tag (c :: rest) || mediaTagSearch tag rest

/-- `BookLoader.sanitise_media` (src/bookloader.py lines 451-476): a bare
integer cell is the audio count; otherwise a `N (vid)` or `N (aud)`
annotation routes the leading integer of the cell to the matching count,
with `AttributeError` paths (no regex match, or no leading digits)
leaving that count at zero; `None` gives `(0, 0)`. -/
def sanitise_media (media_count : Option Str) : Int × Int :=
  match media_count with
  | none => (0, 0)
  | some s =>
    match pyIntParse s with
    | some n => (n, 0)
    | none =>
      let video_count : Int :=
        if mediaTagSearch "vid".toList s then
          match findIntegerOpt s with
          | some n => n
          | none => 0
        else 0
      let audio_count : Int :=
        if mediaTagSearch "aud".toList s then
          match findIntegerOpt s with
          | some n => n
          | none => 0
        else 0
      (audio_count, video_count)

/-- The dictionary merge inside `BookLoader.check_update_contributor`
(src/bookloader.py lines 290-294): over the common key set, each key
takes the incoming contributor's value when it is not `None` and the
remote Thoth value otherwise. -/
def combine_contributor {K V : Type} (contributor thoth_contributor : K → Option V) :
    K → Option V :=
  fun k =>
    match contributor k with
    | some v => some v
    | none => thoth_contributor k

/-- Python dict equality over a shared key set: equal values at every
key. -/
def dictsEqualOn {K V : Type} [DecidableEq V] (keys : List K) (f g : K → Option V) : Bool :=
  keys.all fun k => decide (f k = g k)

/-- The update decision of `BookLoader.check_update_contributor`
(src/bookloader.py lines 276-303), with both dictionaries (sharing the
key set `keys`, the incoming one already carrying `contributorId`)
modelled as functions from keys to optional values: the result is the
payload passed to `thoth.update_contributor`, or `none` when no update
call is issued (either the dictionaries are equal, or the merge equals
the remote record). -/
def check_update_payload {K V : Type} [DecidableEq V] (keys : List K)
    (contributor thoth_contributor : K → Option V) : Option (K → Option V) :=
  if dictsEqualOn keys contributor thoth_contributor then none
  else
    let combined := combine_contributor contributor thoth_contributor
    if dictsEqualOn keys combined thoth_contributor then none else some combined

/-- One attempt of `requests.get` inside `CrossrefClient.get_doi`
(src/crossref.py lines 12-27): either the call raises a
`RequestException` before `res` is assigned, or a response with a status
code is assigned, whose `.json()` may in turn raise a
`RequestException`. -/
inductive Attempt where
  | getRaises
  | resp (status : Nat) (jsonFails : Bool) (msg : Str)

/-- Observable outcome of a `CrossrefClient.get_doi` call. -/
inductive DoiResult where
  | message (m : Str)
  | notFoundFalse
  | unboundLocalError
  | exited
deriving DecidableEq

/-- `CrossrefClient.get_doi` (src/crossref.py lines 12-27), with the
sequence of request outcomes supplied as `att` and the recursion given a
finite call budget `fuel` (the Python call stack): `none` means the call
did not complete within the budget.  On success the pair carries the
result and the number of retry requests issued after the first one.
Control flow: when `requests.get` itself raises, the local `res` was
never assigned, so the handler's first statement
(`logging.error(... % (res.status_code, doi))`) raises
`UnboundLocalError`, which the function does not catch.  On a non-404
response the statement `self.retry_count = 0` (line 19) runs before
`res.json()`, so when `.json()` raises, the handler's guard
`retry_count <= 5` reads the counter that was just reset to 0; the
entry value of the attribute (threaded as the last argument) is never
read. -/
def get_doi (att : Nat → Attempt) : Nat → Nat → Nat → Option (DoiResult × Nat)
  | 0, _, _ => none
  | fuel + 1, attempt, _retry_count =>
    match att attempt with
    | .getRaises =>
      -- handler entered with local variable `res` unbound:
      -- `logging.error(... % (res.status_code, doi))` raises UnboundLocalError
      some (.unboundLocalError, 0)
    | .resp status jsonFails msg =>
      if status = 404 then some (.notFoundFalse, 0)
      else
        -- line 19: `self.retry_count = 0`, executed before `res.json()`
        let retry_count := 0
        if jsonFails then
          -- handler entered with `res` assigned; `res.status_code` reads fine
          if retry_count ≤ 5 then
            -- `self.retry_count += 1`, then the recursive `self.get_doi(doi)`
            match get_doi att fuel (attempt + 1) (retry_count + 1) with
            | none => none
            | some (r, n) => some (r, n + 1)
          else some (.exited, 0)
        else some (.message msg, 0)

/-- Python `max(iterable, default=d)`: the default only applies to an
empty iterable. -/
def pyMax (l : List Int) (dflt : Int) : Int :=
  match l with
  | [] => dflt
  | x :: xs => xs.foldl max x

/-- The fields of a JSON `record["series"]` object used by
`UbiquityAPILoader.create_series`. -/
structure SeriesRec where
  title : Str
  description : Option Str
  issn : Option Str
deriving DecidableEq

/-- The issue payload passed to `thoth.create_issue`. -/
structure IssuePayload where
  seriesId : Nat
  workId : Nat
  issueOrdinal : Int
deriving DecidableEq

/-- `UbiquityAPILoader.create_series` (src/ubiquityapiloader.py lines
299-355), with the remote interactions parametrised: `allSeries` is the
series-name cache, `newId` the id returned by `thoth.create_series`,
`issuesOf` the `issueOrdinal`s of `thoth.series(series_id).issues`, and
`workIssues` the series names of the work's existing issues (`none`
models the `AttributeError` when `work.issues` is absent).  Returns the
payload passed to `thoth.create_issue`, or `none` when the record has no
series or the work already has an issue in it. -/
def ubiquity_create_series (record_series : Option SeriesRec)
    (series_number : Option Int) (workIssues : Option (List Str))
    (allSeries : Str → Option Nat) (newId : Nat) (issuesOf : Nat → List Int)
    (workId : Nat) : Option IssuePayload :=
  match record_series with
  | none => none
  | some sr =>
    let series_name := sr.title
    if (match workIssues with
        | some l => l.contains series_name
        | none => false) then none
    else
      -- new_series is non-None exactly when the name missed the cache
      let isNew : Bool := (allSeries series_name).isNone
      let series_id := match allSeries series_name with
        | some sid => sid
        | none => newId
      let ordinal : Int :=
        match series_number with
        | some n =>
          if n ≠ 0 then n
          else if isNew then 1
          else pyMax (issuesOf series_id) 0 + 1
        | none =>
          if isNew then 1
          else pyMax (issuesOf series_id) 0 + 1
      some ⟨series_id, workId, ordinal⟩

/-- An entry of the `issues_to_create` list handed to
`UOLLoader.create_all_issues`. -/
structure IssueInput where
  series_id : Nat
  work_id : Nat
  issue_ordinal : Option Int
deriving DecidableEq

/-- The Python sort key `(x['issue_ordinal'] is not None, x['issue_ordinal'])`
of src/uolloader.py lines 380-381, as a boolean `<=` on entries: `None`
ordinals sort before all others. -/
def issueKeyLe (a b : IssueInput) : Bool :=
  match a.issue_ordinal, b.issue_ordinal with
  | none, _ => true
  | some _, none => false
  | some x, some y => x ≤ y

/-- The body of the per-series loop of `UOLLoader.create_all_issues`
(src/uolloader.py lines 377-391): sort one series' issues by the
`None`-first key, then enumerate, creating issue payloads with ordinal
`index + 1`. -/
def create_issues_for_group (g : List IssueInput) : List IssuePayload :=
  let sorted_list := g.mergeSort issueKeyLe
  sorted_list.enum.map fun p => ⟨p.2.series_id, p.2.work_id, (p.1 : Int) + 1⟩

/-- `UOLLoader.create_all_issues` (src/uolloader.py lines 365-391): sort
by series id, group adjacent equal ids, and process each group; the
result is the list of payloads passed to `thoth.create_issue`. -/
def create_all_issues (issues_to_create : List IssueInput) : List IssuePayload :=
  let sorted_issues := issues_to_create.mergeSort fun a b => a.series_id ≤ b.series_id
  let grouped_issues := sorted_issues.splitBy fun a b => a.series_id == b.series_id
  (grouped_issues.map create_issues_for_group).flatten

/-- One contributor slot of an OBP CSV row (columns
`Contributor N first name`, `Contributor N surname`, `ORCID ID...`),
with empty cells read as `None` by `prepare_csv_file`. -/
structure ObpSlot where
  firstName : Option Str
  surname : Option Str
  orcid : Option Str
deriving DecidableEq

/-- The contributor payload passed to `thoth.create_contributor` by
`OBPBookLoader.create_contributors`. -/
structure ContributorPayload where
  firstName : Str
  lastName : Str
  fullName : Str
  orcid : Option Str
  website : Option Str
deriving DecidableEq

/-- `OBPBookLoader.create_contributors` (src/obploader.py lines 226-271),
restricted to its contributor-creation effect: iterate the row's
contributor slots; slots with a falsy name or surname are skipped; the
payload takes the ORCID cell verbatim; a full name already in the
`all_contributors` cache reuses the cached id instead of creating, and a
created contributor is added to the cache.  Returns the payloads passed
to `thoth.create_contributor` and the final cache. -/
def obp_create_contributors :
    List ObpSlot → List (Str × Nat) → Nat → List ContributorPayload × List (Str × Nat)
  | [], cache, _ => ([], cache)
  | slot :: rest, cache, nextId =>
    match slot.firstName, slot.surname with
    | some n, some s =>
      if n = [] ∨ s = [] then obp_create_contributors rest cache nextId
      else
        let fullname := n ++ ' ' :: s
        match (cache.find? fun p => p.1 == fullname) with
        | some _ => obp_create_contributors rest cache nextId
        | none =>
          let payload : ContributorPayload := ⟨n, s, fullname, slot.orcid, none⟩
          let r := obp_create_contributors rest ((fullname, nextId) :: cache) (nextId + 1)
          (payload :: r.1, r.2)
    | _, _ => obp_create_contributors rest cache nextId

/-- The title fields of the work payload built by `OBPBookLoader.get_work`
(src/obploader.py lines 33-34 and 66-68): `fullTitle`, `title` and
`subtitle` are exactly the result of `sanitise_title` applied to the
row's `Title` and `Subtitle` cells. -/
def obp_work_title_fields (titleCell : Str) (subtitleCell : Option Str) : TitleDict :=
  sanitise_title titleCell subtitleCell

/-- The attempt sequence in which every request comes back with a
non-404 status and a body whose `.json()` raises. -/
def crossrefAllFail : Nat → Attempt := fun _ => .resp 500 true []

example : split_title "Foo: Bar".toList =
    ⟨"Foo".toList, some "Bar".toList, "Foo: Bar".toList⟩ := by decide

example : (sanitise_title "Foo".toList (some "Bar".toList)).fullTitle =
    "Foo: Bar".toList := by decide

example : sanitise_media (some "2 (vid)".toList) = (0, 2) := by decide

example : sanitise_issn (some "0000-0019".toList) = .ok (some "0000-0019".toList) := by decide

theorem pySplit_no_sep (sep : Char) (s : Str) (h : ∀ c ∈ s, c ≠ sep) :
    pySplit sep s = [s] := by
  induction s with
  | nil => rfl
  | cons c rest ih =>
    have hc : c ≠ sep := h c (List.mem_cons_self c rest)
    have hr := ih fun x hx => h x (List.mem_cons_of_mem c hx)
    simp [pySplit, hc, hr]

theorem pySplit_append_sep (sep : Char) (A B : Str)
    (hA : ∀ c ∈ A, c ≠ sep) (hB : ∀ c ∈ B, c ≠ sep) :
    pySplit sep (A ++ sep :: B) = [A, B] := by
  induction A with
  | nil => simp [pySplit, pySplit_no_sep sep B hB]
  | cons a A ih =>
    have ha : a ≠ sep := hA a (List.mem_cons_self a A)
    have ih2 := ih fun x hx => hA x (List.mem_cons_of_mem a hx)
    simp [pySplit, ha, ih2]

theorem pyStrip_cons_space (B : Str) : pyStrip (' ' :: B) = pyStrip B := by
  simp [pyStrip, List.dropWhile_cons, isPySpace]

theorem listStartsWith_append (p t : Str) : listStartsWith p (p ++ t) = true := by
  induction p with
  | nil => rfl
  | cons a p ih => simp [listStartsWith, ih]

theorem listStartsWith_exists {p s : Str} (h : listStartsWith p s = true) :
    ∃ t, s = p ++ t := by
  induction p generalizing s with
  | nil => exact ⟨s, rfl⟩
  | cons a p ih =>
    cases s with
    | nil => simp [listStartsWith] at h
    | cons c cs =>
      simp only [listStartsWith, Bool.and_eq_true, beq_iff_eq] at h
      obtain ⟨t, ht⟩ := ih h.2
      exact ⟨t, by simp [h.1, ht]⟩

theorem listStartsWith_cons_ne {a c : Char} (p s : Str) (h : a ≠ c) :
    listStartsWith (a :: p) (c :: s) = false := by
  simp [listStartsWith, h]

theorem replaceHttp_cons_ne (c : Char) (s : Str) (hc : c ≠ 'h') :
    replaceHttp (c :: s) = c :: replaceHttp s := by
  rw [replaceHttp]
  rw [show "http://".toList = 'h' :: "ttp://".toList from rfl]
  rw [listStartsWith_cons_ne _ _ (fun h => hc h.symm)]
  simp

theorem replaceHttp_append_no_h (p t : Str) (hp : ∀ c ∈ p, c ≠ 'h') :
    replaceHttp (p ++ t) = p ++ replaceHttp t := by
  induction p with
  | nil => rfl
  | cons a p ih =>
    have ha : a ≠ 'h' := hp a (List.mem_cons_self a p)
    have ih2 := ih fun x hx => hp x (List.mem_cons_of_mem a hx)
    simp [replaceHttp_cons_ne a _ ha, ih2]

theorem replaceHttp_http (r : Str) :
    replaceHttp ("http://".toList ++ r) = "https://".toList ++ replaceHttp r := by
  rw [show ("http://".toList ++ r : Str) = 'h' :: ("ttp://".toList ++ r) from rfl]
  rw [replaceHttp]
  rw [show ('h' :: ("ttp://".toList ++ r) : Str) = "http://".toList ++ r from rfl]
  rw [listStartsWith_append]
  simp

/-- Unfolding of `sanitise_identifier` on a truthy input. -/
theorem sanitise_identifier_some (d s : Str) (hs : s ≠ []) :
    sanitise_identifier (some s) d =
      (if listStartsWith ("https://".toList ++ d ++ ".org/".toList) s then some s
       else if listStartsWith ("http://".toList ++ d ++ ".org/".toList) s then
         some (replaceHttp s)
       else if listStartsWith (d ++ ".org/".toList) s then sanitise_url (some s)
       else some (("https://".toList ++ d ++ ".org/".toList) ++ s)) := by
  simp [sanitise_identifier, hs]

/-- Any string with the canonical `https://DOMAIN.org/` head is a fixed
point of `sanitise_identifier`. -/
theorem sanitise_identifier_of_https (d t : Str) :
    sanitise_identifier (some (("https://".toList ++ d ++ ".org/".toList) ++ t)) d =
      some (("https://".toList ++ d ++ ".org/".toList) ++ t) := by
  have hne : ("https://".toList ++ d ++ ".org/".toList) ++ t ≠ [] := by simp
  rw [sanitise_identifier_some d _ hne, listStartsWith_append]
  simp

/-- `sanitise_identifier` is idempotent for any domain that is nonempty
and free of the character `h` (as `doi`, `orcid` and `ror` are). -/
theorem sanitise_identifier_idem (d : Str) (hd : d ≠ []) (hdh : ∀ c ∈ d, c ≠ 'h')
    (x : Option Str) :
    sanitise_identifier (sanitise_identifier x d) d = sanitise_identifier x d := by
  have horg : ∀ c ∈ (".org/".toList : Str), c ≠ 'h' := by decide
  match x with
  | none => rfl
  | some s =>
    by_cases hse : s = []
    · simp [sanitise_identifier, hse]
    · rw [sanitise_identifier_some d s hse]
      by_cases h1 : listStartsWith ("https://".toList ++ d ++ ".org/".toList) s = true
      · obtain ⟨t, ht⟩ := listStartsWith_exists h1
        rw [h1, if_pos rfl, ht]
        exact sanitise_identifier_of_https d t
      · rw [Bool.eq_false_iff.mpr h1, if_neg (by simp)]
        by_cases h2 : listStartsWith ("http://".toList ++ d ++ ".org/".toList) s = true
        · rw [h2, if_pos rfl]
          obtain ⟨t, ht⟩ := listStartsWith_exists h2
          have hnoh : ∀ c ∈ (d ++ ".org/".toList : Str), c ≠ 'h' := by
            intro c hc
            rcases List.mem_append.mp hc with h | h
            · exact hdh c h
            · exact horg c h
          have hrepl : replaceHttp s =
              ("https://".toList ++ d ++ ".org/".toList) ++ replaceHttp t := by
            rw [ht, show ("http://".toList ++ d ++ ".org/".toList ++ t : Str) =
                  "http://".toList ++ ((d ++ ".org/".toList) ++ t) from by
                simp [List.append_assoc]]
            rw [replaceHttp_http, replaceHttp_append_no_h (d ++ ".org/".toList) t hnoh]
            simp [List.append_assoc]
          rw [hrepl]
          exact sanitise_identifier_of_https d (replaceHttp t)
        · rw [Bool.eq_false_iff.mpr h2, if_neg (by simp)]
          by_cases h3 : listStartsWith (d ++ ".org/".toList) s = true
          · rw [h3, if_pos rfl]
            obtain ⟨t, ht⟩ := listStartsWith_exists h3
            obtain ⟨d0, d', hd'⟩ : ∃ d0 d', d = d0 :: d' := by
              cases d with
              | nil => exact absurd rfl hd
              | cons a b => exact ⟨a, b, rfl⟩
            have hd0 : d0 ≠ 'h' := hdh d0 (by rw [hd']; exact List.mem_cons_self d0 d')
            have hhttps : listStartsWith "https://".toList s = false := by
              rw [ht, hd']
              rw [show "https://".toList = 'h' :: "ttps://".toList from rfl]
              exact listStartsWith_cons_ne _ _ (fun h => hd0 h.symm)
            have hurl : sanitise_url (some s) = some ("https://".toList ++ s) := by
              simp only [sanitise_url]
              rw [if_neg hse, hhttps]
              simp
            have hs2 : "https://".toList ++ s =
                ("https://".toList ++ d ++ ".org/".toList) ++ t := by
              rw [ht]
              simp [List.append_assoc]
            rw [hurl, hs2]
            exact sanitise_identifier_of_https d t
          · rw [Bool.eq_false_iff.mpr h3, if_neg (by simp)]
            exact sanitise_identifier_of_https d s

theorem issueKeyLe_trans (a b c : IssueInput) (h1 : issueKeyLe a b = true)
    (h2 : issueKeyLe b c = true) : issueKeyLe a c = true := by
  unfold issueKeyLe at *
  rcases a with ⟨_, _, oa⟩; rcases b with ⟨_, _, ob⟩; rcases c with ⟨_, _, oc⟩
  cases oa <;> cases ob <;> cases oc <;> simp_all
  omega

theorem issueKeyLe_total (a b : IssueInput) :
    (issueKeyLe a b || issueKeyLe b a) = true := by
  unfold issueKeyLe
  rcases a with ⟨_, _, oa⟩; rcases b with ⟨_, _, ob⟩
  cases oa <;> cases ob <;> simp
  omega

theorem enumFrom_ordinals (n : Nat) (l : List IssueInput) :
    ((l.enumFrom n).map fun p => ((p.1 : Int) + 1)) =
      (List.range' (n + 1) l.length).map Int.ofNat := by
  induction l generalizing n with
  | nil => rfl
  | cons a l ih =>
    simp only [List.enumFrom, List.map_cons, List.length_cons, List.range',
      ih (n + 1), List.cons.injEq, and_true, Int.ofNat_eq_coe]
    push_cast
    ring

theorem enum_ordinals (l : List IssueInput) :
    (l.enum.map fun p => ((p.1 : Int) + 1)) = (List.range' 1 l.length).map Int.ofNat := by
  have h := enumFrom_ordinals 0 l
  simpa [List.enum] using h

/-- C3: `sanitise_date` maps `"2023"` to `"2023-01-01"` and `"20200101"`
to `"2020-01-01"`; on the slash-delimited `"2020/01/01"` it does not
return `"2020-01-01"` but raises `ValueError`, because `str(int(date))`
is evaluated before the slash-replacement branch can run. -/
theorem claim_C3_sanitise_date :
    sanitise_date (some "2023".toList) = .ok (some "2023-01-01".toList) ∧
    sanitise_date (some "20200101".toList) = .ok (some "2020-01-01".toList) ∧
    sanitise_date (some "2020/01/01".toList) = .error .valueError := by
  decide

/-- C6: `sanitise_media` maps `"2 (vid)"` to `(0, 2)`, `"3"` to `(3, 0)`
and `None` to `(0, 0)`; any cell parsed by `int` is treated as the audio
count with a zero video count, and an annotated form routes to the
matching count with the other defaulting to zero. -/
theorem claim_C6_sanitise_media :
    sanitise_media (some "2 (vid)".toList) = (0, 2) ∧
    sanitise_media (some "3".toList) = (3, 0) ∧
    sanitise_media none = (0, 0) ∧
    sanitise_media (some "1 (aud)".toList) = (1, 0) ∧
    (∀ (s : Str) (n : Int), pyIntParse s = some n → sanitise_media (some s) = (n, 0)) := by
  refine ⟨by decide, by decide, by decide, by decide, ?_⟩
  intro s n h
  simp [sanitise_media, h]

/-- Witness for C6 at the concrete bare-integer cell `"42"`. -/
theorem claim_C6_witness : sanitise_media (some "42".toList) = (42, 0) :=
  claim_C6_sanitise_media.2.2.2.2 "42".toList 42 (by decide)

/-- C1: when the incoming contributor dict has exactly one non-null
field, differing from the remote record there, and nulls everywhere
else, `check_update_contributor` sends to `update_contributor` exactly
the remote record with that one field replaced; and whenever the merge
equals the remote record, no update call is issued at all. -/
theorem claim_C1_check_update_contributor {K V : Type} [DecidableEq K] [DecidableEq V]
    (keys : List K) (R C : K → Option V) (k₀ : K) (v : V)
    (hmem : k₀ ∈ keys) (h1 : C k₀ = some v) (h2 : some v ≠ R k₀)
    (h3 : ∀ k, k ≠ k₀ → C k = none) :
    check_update_payload keys C R = some (Function.update R k₀ (some v)) ∧
    combine_contributor C R = Function.update R k₀ (some v) ∧
    (∀ (keys₂ : List K) (C₂ R₂ : K → Option V),
      dictsEqualOn keys₂ (combine_contributor C₂ R₂) R₂ = true →
      check_update_payload keys₂ C₂ R₂ = none) := by
  have hcomb : combine_contributor C R = Function.update R k₀ (some v) := by
    funext k
    by_cases hkk : k = k₀
    · subst hkk; simp [combine_contributor, h1, Function.update]
    · simp [combine_contributor, h3 k hkk, Function.update, hkk]
  have hCR : dictsEqualOn keys C R = false := by
    apply Bool.eq_false_iff.mpr
    intro hall
    have := (List.all_eq_true.mp hall) k₀ hmem
    rw [h1] at this
    exact h2 (of_decide_eq_true this)
  have hcombR : dictsEqualOn keys (Function.update R k₀ (some v)) R = false := by
    apply Bool.eq_false_iff.mpr
    intro hall
    have := (List.all_eq_true.mp hall) k₀ hmem
    simp [Function.update] at this
    exact h2 (by rw [this])
  refine ⟨?_, hcomb, ?_⟩
  · simp [check_update_payload, hCR, hcomb, hcombR]
  · intro keys₂ C₂ R₂ hiff
    by_cases h : dictsEqualOn keys₂ C₂ R₂ = true
    · simp [check_update_payload, h]
    · simp [check_update_payload, h, hiff]

/-- Witness for C1: two-key dicts where only the first field of the
incoming contributor is non-null and differs from the remote value. -/
theorem claim_C1_witness :
    check_update_payload ([0, 1] : List (Fin 2))
      (fun k => if k = 0 then some 1 else none) (fun _ => some (0 : Nat)) =
      some (Function.update (fun _ => some 0) 0 (some 1)) :=
  (claim_C1_check_update_contributor [0, 1]
    (fun _ => some 0) (fun k => if k = 0 then some 1 else none) 0 1
    (by decide) (by decide) (by decide) (by decide)).1

/-- Unfolding of `get_doi` when `requests.get` itself raises. -/
theorem get_doi_raises (att : Nat → Attempt) (fuel a rc : Nat)
    (hatt : att a = .getRaises) :
    get_doi att (fuel + 1) a rc = some (.unboundLocalError, 0) := by
  simp [get_doi, hatt]

/-- Unfolding of `get_doi` on a 404 response. -/
theorem get_doi_notfound (att : Nat → Attempt) (fuel a rc : Nat) (j : Bool) (m : Str)
    (hatt : att a = .resp 404 j m) :
    get_doi att (fuel + 1) a rc = some (.notFoundFalse, 0) := by
  simp [get_doi, hatt]

/-- Unfolding of `get_doi` on a non-404 response with a good body. -/
theorem get_doi_message (att : Nat → Attempt) (fuel a rc : Nat) (s : Nat) (m : Str)
    (hatt : att a = .resp s false m) (hs : s ≠ 404) :
    get_doi att (fuel + 1) a rc = some (.message m, 0) := by
  simp [get_doi, hatt, hs]

/-- Unfolding of `get_doi` on a non-404 response whose `.json()` raises:
the counter was just reset, the guard reads 0, and the call retries with
the incremented counter. -/
theorem get_doi_retry_step (att : Nat → Attempt) (fuel a rc : Nat) (s : Nat) (m : Str)
    (hatt : att a = .resp s true m) (hs : s ≠ 404) :
    get_doi att (fuel + 1) a rc =
      (match get_doi att fuel (a + 1) 1 with
       | none => none
       | some (r, n) => some (r, n + 1)) := by
  simp [get_doi, hatt, hs]

/-- C10: when `requests.get` itself raises a `RequestException`, the
local `res` was never assigned, so the handler's first statement raises
an uncaught error: `get_doi` neither retries nor exits on
connection-level failures, and the retry/exit branch is reached only
when a response object was assigned in the same call. -/
theorem claim_C10_unbound_res :
    (∀ (att : Nat → Attempt) (fuel a rc : Nat), att a = .getRaises →
      get_doi att (fuel + 1) a rc = some (.unboundLocalError, 0)) ∧
    (∀ (att : Nat → Attempt) (fuel a rc : Nat) (r : DoiResult) (n : Nat),
      get_doi att fuel a rc = some (r, n) → r = .exited ∨ n ≠ 0 →
      ∃ s m, att a = .resp s true m ∧ s ≠ 404) := by
  constructor
  · intro att fuel a rc h
    exact get_doi_raises att fuel a rc h
  · intro att fuel a rc r n h hor
    match fuel with
    | 0 => exact Option.noConfusion h
    | fuel + 1 =>
      match hatt : att a with
      | .getRaises =>
        rw [get_doi_raises att fuel a rc hatt] at h
        cases h
        rcases hor with hor | hor
        · exact absurd hor (by simp)
        · exact absurd rfl hor
      | .resp s j m =>
        by_cases hs : s = 404
        · subst hs
          rw [get_doi_notfound att fuel a rc j m hatt] at h
          cases h
          rcases hor with hor | hor
          · exact absurd hor (by simp)
          · exact absurd rfl hor
        · cases j with
          | false =>
            rw [get_doi_message att fuel a rc s m hatt hs] at h
            cases h
            rcases hor with hor | hor
            · exact absurd hor (by simp)
            · exact absurd rfl hor
          | true => exact ⟨s, m, rfl, hs⟩

/-- Witness for C10 at an attempt sequence whose first request raises a
connection-level `RequestException`. -/
theorem claim_C10_witness :
    get_doi (fun _ => .getRaises) 1 0 0 = some (.unboundLocalError, 0) :=
  claim_C10_unbound_res.1 (fun _ => .getRaises) 0 0 0 rfl

/-- C7: the bounded-retry-then-abort behaviour the claim (and the code's
own counter, guard and `sys.exit(1)`) describe never happens: line 19
resets `self.retry_count` to 0 before `res.json()` on every attempt, so
the handler's guard always reads 0.  Under persistent request failure
`get_doi` never completes within any finite call budget (it recurses
without bound), and no call whatsoever returns the exited result —
`sys.exit(1)` is dead code. -/
theorem claim_C7_dead_exit :
    (∀ (fuel a rc : Nat), get_doi crossrefAllFail fuel a rc = none) ∧
    (∀ (att : Nat → Attempt) (fuel a rc : Nat) (r : DoiResult) (n : Nat),
      get_doi att fuel a rc = some (r, n) → r ≠ .exited) := by
  constructor
  · intro fuel
    induction fuel with
    | zero => intro a rc; rfl
    | succ fuel ih =>
      intro a rc
      simp [get_doi, crossrefAllFail, ih]
  · intro att fuel
    induction fuel with
    | zero =>
      intro a rc r n h
      exact Option.noConfusion h
    | succ fuel ih =>
      intro a rc r n h
      match hatt : att a with
      | .getRaises =>
        rw [get_doi_raises att fuel a rc hatt] at h
        cases h
        simp
      | .resp s j m =>
        by_cases hs : s = 404
        · subst hs
          rw [get_doi_notfound att fuel a rc j m hatt] at h
          cases h
          simp
        · cases j with
          | false =>
            rw [get_doi_message att fuel a rc s m hatt hs] at h
            cases h
            simp
          | true =>
            rw [get_doi_retry_step att fuel a rc s m hatt hs] at h
            cases hrec : get_doi att fuel (a + 1) 1 with
            | none =>
              rw [hrec] at h
              exact Option.noConfusion h
            | some p =>
              obtain ⟨r2, n2⟩ := p
              rw [hrec] at h
              injection h with h1
              injection h1 with hr hn
              exact hr ▸ ih (a + 1) 1 r2 n2 hrec

/-- Witness for C7: the dead-exit theorem applied at a concrete
connection-failing attempt sequence with call budget 1. -/
theorem claim_C7_witness : (DoiResult.unboundLocalError : DoiResult) ≠ .exited :=
  claim_C7_dead_exit.2 (fun _ => .getRaises) 1 0 0 .unboundLocalError 0 (by decide)

/-- Counterexample to C9: for the OBP loader, a Title cell `"Foo: Bar"`
(with an empty Subtitle cell) is not split — the work payload's title is
`"Foo: Bar"`, not `"Foo"`, and its subtitle is `None`, not `"Bar"`; and
the contributor payload carries the ORCID cell verbatim, not the
`https://orcid.org/` form. -/
theorem claim_C9_counterexample :
    (obp_work_title_fields "Foo: Bar".toList none).title ≠ "Foo".toList ∧
    (obp_work_title_fields "Foo: Bar".toList none).subtitle ≠ some "Bar".toList ∧
    (obp_create_contributors
      [⟨some "Ann".toList, some "Smith".toList, some "0000-0001-2345-6789".toList⟩,
       ⟨some "Ann".toList, some "Smith".toList, some "0000-0001-2345-6789".toList⟩]
      [] 0).1.map ContributorPayload.orcid ≠
      [some "https://orcid.org/0000-0001-2345-6789".toList] := by
  decide

/-- C9 as amended: fed a single OBP CSV row whose Title cell is
`"Foo: Bar"` with an empty Subtitle cell, the one work payload built for
`create_work` has fullTitle `"Foo: Bar"`, title `"Foo: Bar"` and
subtitle `None`; and with the same contributor listed in two slots
(cache initially empty), `create_contributor` is called exactly once,
with the ORCID exactly as written in the CSV cell. -/
theorem claim_C9_amended :
    obp_work_title_fields "Foo: Bar".toList none =
      ⟨"Foo: Bar".toList, none, "Foo: Bar".toList⟩ ∧
    (obp_create_contributors
      [⟨some "Ann".toList, some "Smith".toList, some "0000-0001-2345-6789".toList⟩,
       ⟨some "Ann".toList, some "Smith".toList, some "0000-0001-2345-6789".toList⟩]
      [] 0).1 =
      [⟨"Ann".toList, "Smith".toList, "Ann Smith".toList,
        some "0000-0001-2345-6789".toList, none⟩] := by
  decide

/-- Counterexample to C2: `"Foo:Bar"` contains exactly one colon, but
splitting and rejoining yields `"Foo: Bar"` (a space is inserted after
the colon), not the original string. -/
theorem claim_C2_counterexample :
    "Foo:Bar".toList.count ':' = 1 ∧
    (sanitise_title (split_title "Foo:Bar".toList).title
       (split_title "Foo:Bar".toList).subtitle).fullTitle = "Foo: Bar".toList ∧
    (sanitise_title (split_title "Foo:Bar".toList).title
       (split_title "Foo:Bar".toList).subtitle).fullTitle ≠ "Foo:Bar".toList := by
  decide

/-- C2 as amended: split-then-rejoin reconstructs the original full
title for titles of the form `A ++ ": " ++ B` where neither part
contains a colon, both parts are strip-fixed, the title part does not
end in a question mark, and the subtitle part is nonempty. -/
theorem claim_C2_amended (A B : Str)
    (hA : ∀ c ∈ A, c ≠ ':') (hB : ∀ c ∈ B, c ≠ ':')
    (hAs : pyStrip A = A) (hBs : pyStrip B = B)
    (hAq : listEndsWith ['?'] A = false) (hBne : B ≠ []) :
    (sanitise_title (split_title (A ++ ':' :: ' ' :: B)).title
       (split_title (A ++ ':' :: ' ' :: B)).subtitle).fullTitle =
      A ++ ':' :: ' ' :: B := by
  have hsp : pySplit ':' (A ++ ':' :: (' ' :: B)) = [A, ' ' :: B] := by
    refine pySplit_append_sep ':' A (' ' :: B) hA ?_
    intro c hc
    rcases List.mem_cons.mp hc with h | h
    · rw [h]; decide
    · exact hB c h
  have hstrip : pyStrip (' ' :: B) = B := by rw [pyStrip_cons_space, hBs]
  simp only [split_title, hsp, hstrip, hAs, sanitise_title, hAq, hBne]
  simp [hBne]

/-- Witness for C2 as amended, at the title `"Foo: Bar"`. -/
theorem claim_C2_witness :
    (sanitise_title (split_title "Foo: Bar".toList).title
       (split_title "Foo: Bar".toList).subtitle).fullTitle = "Foo: Bar".toList := by
  have h := claim_C2_amended "Foo".toList "Bar".toList
    (by decide) (by decide) (by decide) (by decide) (by decide) (by decide)
  exact h

/-- Counterexample to C4: the input `"abcd-efgh"` does not consist of 8
digits at all, yet `sanitise_issn` returns it unchanged instead of
raising — only lengths are checked, never digit-ness. -/
theorem claim_C4_counterexample :
    sanitise_issn (some "abcd-efgh".toList) = .ok (some "abcd-efgh".toList) ∧
    "abcd-efgh".toList.countP Char.isDigit ≠ 8 := by
  decide

/-- C4 as amended: for every truthy input, `sanitise_issn` raises the
formatting `ValueError` exactly when the hyphenated form is not 9
characters long — that is, when an input containing a hyphen is not
exactly 9 characters, or an input without a hyphen is not exactly 8
characters; the characters themselves are never inspected. -/
theorem claim_C4_amended (s : Str) (hs : s ≠ []) :
    sanitise_issn (some s) = .error .valueError ↔
      (if strContains '-' s then s.length ≠ 9 else s.length ≠ 8) := by
  have hlen : (s.take 4 ++ '-' :: s.drop 4).length = s.length + 1 := by
    simp only [List.length_append, List.length_take, List.length_cons,
      List.length_drop]
    omega
  by_cases hc : strContains '-' s
  · by_cases h9 : s.length = 9
    · simp [sanitise_issn, hs, hc, h9]
    · simp [sanitise_issn, hs, hc, h9]
  · by_cases h8 : s.length = 8
    · simp [sanitise_issn, hs, hc, hlen, h8]
    · simp [sanitise_issn, hs, hc, hlen, h8]

/-- Witness for C4 as amended: the 7-character hyphen-free input
`"1234567"` raises the formatting error. -/
theorem claim_C4_witness :
    sanitise_issn (some "1234567".toList) = .error .valueError :=
  (claim_C4_amended "1234567".toList (by decide)).mpr (by decide)

/-- C5: the identifier canonicalizers are idempotent — `sanitise_isbn`
maps a valid unhyphenated 13-digit ISBN (whose hyphenation is a
17-character hyphenated string) to a fixed point, and is the identity on
17-character hyphenated inputs; `sanitise_doi`, `sanitise_orcid` and
`sanitise_ror` are idempotent on every input; and `sanitise_issn` is
fixed on every value it returns. -/
theorem claim_C5_idempotent :
    (∀ (hyphenate : Str → Except PyError Str) (x y : Str) (n : Int),
      x ≠ [] → strContains '-' x = false → pyIntParse x = some n →
      hyphenate (pyStrOfInt n) = .ok y → y.length = 17 → strContains '-' y = true →
      sanitise_isbn hyphenate (some x) = .ok (some y) ∧
        sanitise_isbn hyphenate (some y) = .ok (some y)) ∧
    (∀ (hyphenate : Str → Except PyError Str) (x : Str),
      strContains '-' x = true → x.length = 17 →
      sanitise_isbn hyphenate (some x) = .ok (some x)) ∧
    (∀ x : Option Str, sanitise_doi (sanitise_doi x) = sanitise_doi x) ∧
    (∀ x : Option Str, sanitise_orcid (sanitise_orcid x) = sanitise_orcid x) ∧
    (∀ x : Option Str, sanitise_ror (sanitise_ror x) = sanitise_ror x) ∧
    (∀ (x y : Option Str), sanitise_issn x = .ok y → sanitise_issn y = .ok y) := by
  refine ⟨?_, ?_, ?_, ?_, ?_, ?_⟩
  · intro hyphenate x y n hx hdash hparse hh hlen hcont
    have hy : y ≠ [] := by
      intro hnil
      rw [hnil] at hlen
      simp at hlen
    constructor
    · simp [sanitise_isbn, hx, hdash, hparse, hh]
    · simp [sanitise_isbn, hy, hcont, hlen]
  · intro hyphenate x hdash hlen
    have hx : x ≠ [] := by
      intro hnil
      rw [hnil] at hlen
      simp at hlen
    simp [sanitise_isbn, hx, hdash, hlen]
  · exact sanitise_identifier_idem "doi".toList (by decide) (by decide)
  · exact sanitise_identifier_idem "orcid".toList (by decide) (by decide)
  · exact sanitise_identifier_idem "ror".toList (by decide) (by decide)
  · intro x y hxy
    match x with
    | none =>
      simp only [sanitise_issn] at hxy
      cases hxy
      rfl
    | some s =>
      by_cases hse : s = []
      · subst hse
        simp only [sanitise_issn, if_pos rfl] at hxy
        cases hxy
        rfl
      · simp only [sanitise_issn, if_neg hse] at hxy
        by_cases h9 : (if strContains '-' s then s
            else s.take 4 ++ '-' :: s.drop 4).length ≠ 9
        · rw [if_pos h9] at hxy
          exact Except.noConfusion hxy
        · rw [if_neg h9] at hxy
          cases hxy
          have hlen9 : (if strContains '-' s then s
              else s.take 4 ++ '-' :: s.drop 4).length = 9 := by omega
          have hne : (if strContains '-' s then s
              else s.take 4 ++ '-' :: s.drop 4) ≠ [] := by
            intro h0
            rw [h0] at hlen9
            simp at hlen9
          have hcont : strContains '-' (if strContains '-' s then s
              else s.take 4 ++ '-' :: s.drop 4) = true := by
            by_cases hc : strContains '-' s
            · rw [if_pos hc]
              exact hc
            · rw [if_neg hc]
              have hm : ('-' : Char) ∈ s.take 4 ++ '-' :: s.drop 4 :=
                List.mem_append_right _ (List.mem_cons_self '-' (s.drop 4))
              simp [strContains, hm]
          simp [sanitise_issn, hne, hcont, hlen9]

/-- Witness for C5: a concrete 13-digit ISBN with and without hyphens,
and a concrete ISSN output, are fixed points. -/
theorem claim_C5_witness :
    sanitise_isbn (fun _ => .ok "978-1-23456-789-7".toList)
        (some "9781234567897".toList) = .ok (some "978-1-23456-789-7".toList) ∧
    sanitise_isbn (fun _ => .ok "978-1-23456-789-7".toList)
        (some "978-1-23456-789-7".toList) = .ok (some "978-1-23456-789-7".toList) ∧
    sanitise_issn (some "1234-5678".toList) = .ok (some "1234-5678".toList) :=
  ⟨(claim_C5_idempotent.1 (fun _ => .ok "978-1-23456-789-7".toList)
      "9781234567897".toList "978-1-23456-789-7".toList 9781234567897
      (by decide) (by decide) (by decide) rfl (by decide) (by decide)).1,
   claim_C5_idempotent.2.1 (fun _ => .ok "978-1-23456-789-7".toList)
      "978-1-23456-789-7".toList (by decide) (by decide),
   claim_C5_idempotent.2.2.2.2.2 (some "12345678".toList)
      (some "1234-5678".toList) (by decide)⟩

/-- C8: with no explicit series number and no existing issue of the work
in the series, `UbiquityAPILoader.create_series` sends ordinal
`max + 1` over the series' current issue ordinals (so 1 for an issueless
series) when the series came from the cache, and ordinal 1 when the
series was just created; and the count-based fallback
`create_all_issues` processes each series group sorted with `None`
ordinals first (a permutation of the group) and assigns ordinals
`1..n` by position. -/
theorem claim_C8_series_ordinals :
    (∀ (sr : SeriesRec) (workIssues : Option (List Str))
        (allSeries : Str → Option Nat) (newId : Nat) (issuesOf : Nat → List Int)
        (workId : Nat),
      (match workIssues with
        | some l => l.contains sr.title
        | none => false) = false →
      ((∀ sid, allSeries sr.title = some sid →
          ubiquity_create_series (some sr) none workIssues allSeries newId issuesOf workId =
            some ⟨sid, workId, pyMax (issuesOf sid) 0 + 1⟩) ∧
        (allSeries sr.title = none →
          ubiquity_create_series (some sr) none workIssues allSeries newId issuesOf workId =
            some ⟨newId, workId, 1⟩))) ∧
    (∀ issues : List IssueInput,
      create_all_issues issues =
        (((issues.mergeSort fun a b => a.series_id ≤ b.series_id).splitBy
            fun a b => a.series_id == b.series_id).map create_issues_for_group).flatten) ∧
    (∀ g : List IssueInput,
      (create_issues_for_group g).map IssuePayload.issueOrdinal =
        (List.range' 1 g.length).map Int.ofNat) ∧
    (∀ g : List IssueInput, (g.mergeSort issueKeyLe).Perm g) ∧
    (∀ g : List IssueInput,
      List.Pairwise (fun a b => b.issue_ordinal = none → a.issue_ordinal = none)
        (g.mergeSort issueKeyLe)) := by
  refine ⟨?_, fun _ => rfl, ?_, fun g => List.mergeSort_perm g issueKeyLe, ?_⟩
  · intro sr workIssues allSeries newId issuesOf workId hno
    constructor
    · intro sid hsid
      cases workIssues with
      | none => simp [ubiquity_create_series, hsid]
      | some l =>
        have hm : sr.title ∉ l := by simpa using hno
        simp [ubiquity_create_series, hsid, hm]
    · intro hnone
      cases workIssues with
      | none => simp [ubiquity_create_series, hnone]
      | some l =>
        have hm : sr.title ∉ l := by simpa using hno
        simp [ubiquity_create_series, hnone, hm]
  · intro g
    have hord : ((g.mergeSort issueKeyLe).enum.map fun p => ((p.1 : Int) + 1)) =
        (List.range' 1 (g.mergeSort issueKeyLe).length).map Int.ofNat :=
      enum_ordinals (g.mergeSort issueKeyLe)
    simp only [create_issues_for_group, List.map_map]
    rw [List.length_mergeSort] at hord
    rw [← hord]
    rfl
  · intro g
    have hsorted := List.sorted_mergeSort issueKeyLe_trans issueKeyLe_total g
    refine hsorted.imp ?_
    intro a b hab hb
    rcases ha : a.issue_ordinal with _ | av
    · rfl
    · rw [issueKeyLe, ha, hb] at hab
      exact absurd hab (by simp)

/-- Witness for C8: a cached series with issue ordinals `[3, 1]` gets
ordinal 4, and a freshly created series gets ordinal 1. -/
theorem claim_C8_witness :
    ubiquity_create_series (some ⟨"S".toList, none, none⟩) none (some [])
        (fun _ => some 7) 99 (fun _ => [3, 1]) 42 = some ⟨7, 42, 4⟩ ∧
    ubiquity_create_series (some ⟨"S".toList, none, none⟩) none none
        (fun _ => none) 99 (fun _ => []) 42 = some ⟨99, 42, 1⟩ := by
  constructor
  · have h := (claim_C8_series_ordinals.1 ⟨"S".toList, none, none⟩ (some [])
      (fun _ => some 7) 99 (fun _ => [3, 1]) 42 (by decide)).1 7 rfl
    rw [h]
    decide
  · exact (claim_C8_series_ordinals.1 ⟨"S".toList, none, none⟩ none
      (fun _ => none) 99 (fun _ => []) 42 (by decide)).2 rfl

end ThothLoader
